import Mathlib

/-!
Verification of the Library terminal application (Readeem/Library).

The development shallowly embeds the repository's Python sources:

* `output.py` — the output sink is modelled as the list of messages written to
  it (`Msg`), tagged by channel (`info` / `warning` / `error`); ANSI styling is
  presentation-only and not modelled.
* `book.py` — `Book`, `BookStatus`.
* `bookshelf.py` — `Bookshelf`; the Python `dict[str, Book]` is modelled as an
  insertion-ordered association list with the same lookup / insert-or-replace /
  pop semantics; the persisted `books.json` contents are modelled by the
  `file` field (`none` = file absent).
* `command.py` — `Command`, token coercion and `Command.invoke`.
* `app.py` — the registered command table `App.COMMANDS` (declaration order,
  as collected by `SupportsCommandsType`), `App.invoke_command`, `App.status`.

Python exceptions that may escape a function are modelled with `Except`;
an operation body is modelled as a function returning its new state, the
messages it wrote, and `Option String` — `some e` meaning the body raised an
exception whose display text is `e`.
-/

deriving instance DecidableEq for Except

namespace LibraryApp

/-! ## output.py -/

/-- One message written to the output sink, tagged with the channel
(`Output.info` / `Output.warning` / `Output.error`) that produced it. -/
inductive Msg
  | info (text : String)
  | warning (text : String)
  | error (text : String)
deriving DecidableEq

/-! ## book.py -/

/-- Book status enumeration (`BookStatus` in `book.py`):
`in_stock = 1`, `handed_over = 0`. -/
inductive BookStatus
  | in_stock
  | handed_over
deriving DecidableEq

/-- A book record (`Book` in `book.py`).  The `id` is an opaque string
(randomly generated on construction when absent; here always explicit). -/
structure Book where
  title : String
  author : String
  year : Int
  status : BookStatus
  id : String
deriving DecidableEq

/-- `Book.str_status`: readable string version of the status.  The Python
`else: return 'Unknown status'` branch is unreachable for the two-valued
enumeration and the Lean match is total without it. -/
def Book.str_status (b : Book) : String :=
  match b.status with
  | BookStatus.in_stock => "In stock"
  | BookStatus.handed_over => "Handed over"

/-! ## bookshelf.py

Python's `dict[str, Book]` modelled as an insertion-ordered association list:
lookup finds the entry with the given key; insert replaces in place when the
key exists and appends otherwise; pop removes the entry. -/

/-- Key lookup, `self.books.get(book_id)` / `book_id in self.books`. -/
def dictLookup : List (String × Book) → String → Option Book
  | [], _ => none
  | (k, v) :: rest, key => if k = key then some v else dictLookup rest key

/-- Key membership, Python `key in dict`. -/
def dictContains (bs : List (String × Book)) (key : String) : Bool :=
  (dictLookup bs key).isSome

/-- `self.books[key] = v`: replace in place when present, append when absent
(Python dicts preserve the position of an existing key). -/
def dictInsert (key : String) (v : Book) : List (String × Book) → List (String × Book)
  | [] => [(key, v)]
  | (k, w) :: rest => if k = key then (key, v) :: rest else (k, w) :: dictInsert key v rest

/-- `self.books.pop(key)`'s removal effect. -/
def dictRemove (key : String) : List (String × Book) → List (String × Book)
  | [] => []
  | (k, w) :: rest => if k = key then rest else (k, w) :: dictRemove key rest

/-- The bookshelf (`Bookshelf` in `bookshelf.py`): the in-memory mapping of
`Book.id` to `Book`, plus the persisted contents of the data file
(`none` = file absent, as on first run).  `file_path` is a fixed name and not
modelled. -/
structure Bookshelf where
  books : List (String × Book)
  file : Option (List (String × Book))
deriving DecidableEq

/-- A fresh `Bookshelf()` before any load: empty mapping, no file. -/
def Bookshelf.empty : Bookshelf := { books := [], file := none }

/-- `Bookshelf.save_books`: serialize the current mapping to the data file. -/
def Bookshelf.save_books (s : Bookshelf) : Bookshelf :=
  { s with file := some s.books }

/-- `Bookshelf.add_book`: `self.books[book.id] = book` then `save_books`. -/
def Bookshelf.add_book (s : Bookshelf) (book : Book) : Bookshelf :=
  Bookshelf.save_books { s with books := dictInsert book.id book s.books }

/-- `Bookshelf.remove_book`: `pop` (raising `KeyError` when absent, modelled
as `Except.error`) then `save_books`, returning the removed book. -/
def Bookshelf.remove_book (s : Bookshelf) (book_id : String) :
    Except String (Bookshelf × Book) :=
  match dictLookup s.books book_id with
  | none => Except.error ("KeyError: " ++ book_id)
  | some b =>
    Except.ok (Bookshelf.save_books { s with books := dictRemove book_id s.books }, b)

/-- `Bookshelf.load_books`: iterate over the decoded file's values and store
each successfully parsed book under `book.id` (the file's own key is ignored).
The decoded JSON value for each entry is modelled by `Option Book`:
`some book` when `Book.from_dict` succeeds, `none` when it raises
`KeyError` / `ValueError` / `TypeError` and the entry is skipped.  The
early return on a missing file and the `TypeError` raised on a corrupt file
both leave `books` unchanged and are covered by `data = []`. -/
def Bookshelf.load_books (s : Bookshelf) (data : List (String × Option Book)) : Bookshelf :=
  { s with
    books := data.foldl (fun bs kv =>
      match kv.2 with
      | some book => dictInsert book.id book bs
      | none => bs) s.books }

/-- One mutating bookshelf operation, for stating invariants over arbitrary
operation sequences. -/
inductive ShelfOp
  | load (data : List (String × Option Book))
  | add (book : Book)
  | remove (book_id : String)

/-- Apply one operation; a `remove_book` of an absent id raises `KeyError`
and leaves the state unchanged. -/
def Bookshelf.applyOp (s : Bookshelf) : ShelfOp → Bookshelf
  | ShelfOp.load data => s.load_books data
  | ShelfOp.add book => s.add_book book
  | ShelfOp.remove book_id =>
    match s.remove_book book_id with
    | Except.ok (s2, _) => s2
    | Except.error _ => s

/-- Apply a sequence of bookshelf operations in order. -/
def Bookshelf.applyOps (s : Bookshelf) (ops : List ShelfOp) : Bookshelf :=
  ops.foldl Bookshelf.applyOp s

/-- The mapping invariant: every key of the `books` mapping equals the `id`
field of the book it maps to. -/
def idInvariant (bs : List (String × Book)) : Prop :=
  ∀ kv ∈ bs, kv.1 = kv.2.id

instance (bs : List (String × Book)) : Decidable (idInvariant bs) :=
  inferInstanceAs (Decidable (∀ kv ∈ bs, kv.1 = kv.2.id))

/-! ## command.py -/

/-- The four primitive parameter types a command callback may declare
(`valid_types` in `Command._validate_func`). -/
inductive PyType
  | str
  | int
  | float
  | bool
deriving DecidableEq

/-- `type.__name__`, as interpolated into error and usage messages. -/
def PyType.type_name : PyType → String
  | PyType.str => "str"
  | PyType.int => "int"
  | PyType.float => "float"
  | PyType.bool => "bool"

/-- A parameter's type annotation: a bare primitive, or `typing.Optional`
of one (the `OPTIONALS` set in `command.py`). -/
inductive Annot
  | prim (t : PyType)
  | opt (t : PyType)
deriving DecidableEq

/-- Whether the annotation is in `OPTIONALS`. -/
def Annot.isOpt : Annot → Bool
  | Annot.prim _ => false
  | Annot.opt _ => true

/-- `_type = p.annotation if p.annotation not in OPTIONALS else get_args(p.annotation)[0]`. -/
def Annot.base : Annot → PyType
  | Annot.prim t => t
  | Annot.opt t => t

/-- One entry of `Command._parameters` (an `inspect.Parameter` that passed
`_check_param`): its name, annotation, and whether it is the `*args`-style
`VAR_POSITIONAL` parameter. -/
structure Param where
  name : String
  annot : Annot
  variadic : Bool
deriving DecidableEq

/-- `Command._format_param`: `<name: Type>` using `annotation.__name__` for a
bare primitive and `str(annotation)` (which renders as
`typing.Optional[Type]`) for an optional one. -/
def Param.format_param (p : Param) : String :=
  "<" ++ p.name ++ ": " ++
    (match p.annot with
     | Annot.prim t => t.type_name
     | Annot.opt t => "typing.Optional[" ++ t.type_name ++ "]") ++ ">"

/-- A registered command (`Command` in `command.py`): primary name, aliases
(Python `aliases: list[str] | None`, with `None` and `[]` both modelled as
`[]` — `invokable_names` treats them identically), and the filtered parameter
list `_parameters`.  The bound callback `func` is supplied separately at
invocation time. -/
structure Command where
  name : String
  aliases : List String
  parameters : List Param
deriving DecidableEq

/-- `Command.invokable_names`: `(self.name, *self.aliases)` when aliases are
non-empty, `(self.name,)` otherwise; both cases equal `name :: aliases`. -/
def Command.invokable_names (c : Command) : List String :=
  c.name :: c.aliases

/-- `Command._get_required_count`: the number of parameters whose annotation
is not in `OPTIONALS`.  Note the code does not exclude a `VAR_POSITIONAL`
parameter: a variadic parameter with a non-`Optional` annotation is counted. -/
def Command.required_count (c : Command) : Nat :=
  (c.parameters.filter (fun p => !p.annot.isOpt)).length

/-- `TRUE_EXPRESSIONS` from `command.py` (a frozenset; modelled as a list,
membership being all that is used). -/
def TRUE_EXPRESSIONS : List String := ["true", "yes", "1", "t", "y"]

/-- `FALSE_EXPRESSIONS` from `command.py`. -/
def FALSE_EXPRESSIONS : List String := ["false", "no", "0", "f", "n"]

/-! ### Models of the CPython builtins `int(str)` and `float(str)`

Only their acceptance of a token matters to the program's observable
behaviour (a rejected token triggers the `except (TypeError, ValueError)`
branch); the numeric value model is exact for `int` and exact-rational for
`float`. -/

/-- Leading and trailing whitespace stripping performed by `int()` / `float()`. -/
def stripWs (cs : List Char) : List Char :=
  ((cs.dropWhile Char.isWhitespace).reverse.dropWhile Char.isWhitespace).reverse

/-- Consume a CPython digit part `digit+ ("_" digit+)*` from the front,
returning its value, the number of digits consumed, and the rest. -/
def takeUDigitsGo : List Char → Nat → Nat → Nat × Nat × List Char
  | '_' :: c :: rest, acc, k =>
    if c.isDigit then takeUDigitsGo rest (acc * 10 + (c.toNat - 48)) (k + 1)
    else (acc, k, '_' :: c :: rest)
  | c :: rest, acc, k =>
    if c.isDigit then takeUDigitsGo rest (acc * 10 + (c.toNat - 48)) (k + 1)
    else (acc, k, c :: rest)
  | [], acc, k => (acc, k, [])

/-- Consume a digit part, failing when the input does not start with a digit
(in particular a leading underscore is rejected, as in CPython). -/
def takeUDigits (cs : List Char) : Option (Nat × Nat × List Char) :=
  match cs with
  | c :: rest => if c.isDigit then some (takeUDigitsGo rest (c.toNat - 48) 1) else none
  | [] => none

/-- A digit part that must consume the whole input. -/
def parseUDigits (cs : List Char) : Option Nat :=
  match takeUDigits cs with
  | some (v, _, []) => some v
  | _ => none

/-- Model of CPython `int(s)` on a string argument: surrounding whitespace,
an optional sign, then a digit part (with single underscores allowed between
digits).  Anything else raises `ValueError`, modelled as `none`. -/
def pyParseInt (s : String) : Option Int :=
  match stripWs s.data with
  | '+' :: rest => (parseUDigits rest).map (fun n => (n : Int))
  | '-' :: rest => (parseUDigits rest).map (fun n => -(n : Int))
  | rest => (parseUDigits rest).map (fun n => (n : Int))

/-- The value of CPython `float(s)`: a finite value (modelled as the exact
rational the decimal literal denotes), an infinity, or a NaN. -/
inductive PyFloat
  | finite (q : ℚ)
  | inf (negative : Bool)
  | nan
deriving DecidableEq

/-- Exponent suffix of a float literal: `(e|E) [sign] digitpart`, consuming
the whole remaining input. -/
def floatExpTail (m : ℚ) (r : List Char) : Option ℚ :=
  match (match r with
         | '+' :: t => (false, t)
         | '-' :: t => (true, t)
         | t => (false, t)) with
  | (eneg, r2) =>
    match takeUDigits r2 with
    | some (e, _, []) => some (if eneg then m / 10 ^ e else m * 10 ^ e)
    | _ => none

/-- Optional exponent after the mantissa; the rest must be empty otherwise. -/
def floatExp (m : ℚ) (rest : List Char) : Option ℚ :=
  match rest with
  | [] => some m
  | 'e' :: r => floatExpTail m r
  | 'E' :: r => floatExpTail m r
  | _ => none

/-- Mantissa of a float literal: `digitpart [. [digitpart]] | . digitpart`,
followed by the optional exponent. -/
def floatMantissa (cs : List Char) : Option ℚ :=
  match takeUDigits cs with
  | some (ip, _, rest) =>
    match rest with
    | '.' :: rest2 =>
      match takeUDigits rest2 with
      | some (fp, k, rest3) => floatExp ((ip : ℚ) + (fp : ℚ) / 10 ^ k) rest3
      | none => floatExp (ip : ℚ) rest2
    | _ => floatExp (ip : ℚ) rest
  | none =>
    match cs with
    | '.' :: rest2 =>
      match takeUDigits rest2 with
      | some (fp, k, rest3) => floatExp ((fp : ℚ) / 10 ^ k) rest3
      | none => none
    | _ => none

/-- Model of CPython `float(s)`: surrounding whitespace, optional sign, then
either a case-insensitive `inf` / `infinity` / `nan` or a decimal literal.
Failure (`ValueError`) is `none`. -/
def pyParseFloat (s : String) : Option PyFloat :=
  match (match stripWs s.data with
         | '+' :: t => (false, t)
         | '-' :: t => (true, t)
         | t => (false, t)) with
  | (neg, body) =>
    let low := body.map Char.toLower
    if low = ['i', 'n', 'f'] ∨ low = ['i', 'n', 'f', 'i', 'n', 'i', 't', 'y'] then
      some (PyFloat.inf neg)
    else if low = ['n', 'a', 'n'] then
      some PyFloat.nan
    else
      (floatMantissa body).map (fun q => PyFloat.finite (if neg then -q else q))

/-- A coerced argument value appended to `ready` in `Command.invoke`. -/
inductive Value
  | str (s : String)
  | int (z : Int)
  | float (f : PyFloat)
  | bool (b : Bool)
deriving DecidableEq

/-- The per-token conversion `_type(given)` in `Command.invoke`, after the
boolean-literal substitution: a recognized member of `TRUE_EXPRESSIONS` /
`FALSE_EXPRESSIONS` is replaced by `1` / `0` before the `bool(...)` call, any
other token reaches `bool(...)` unchanged and coerces by string truthiness
(non-empty = true); `str(...)` never fails; `int(...)` / `float(...)` raise
`ValueError` (modelled as `none`) when the numeric parse fails. -/
def coerce (t : PyType) (given : String) : Option Value :=
  match t with
  | PyType.str => some (Value.str given)
  | PyType.int => (pyParseInt given).map Value.int
  | PyType.float => (pyParseFloat given).map Value.float
  | PyType.bool =>
    if given ∈ TRUE_EXPRESSIONS then some (Value.bool true)
    else if given ∈ FALSE_EXPRESSIONS then some (Value.bool false)
    else some (Value.bool (!given.isEmpty))

/-- A coercion failure: the offending parameter's name, the expected type,
and the raw token, exactly the data `_print_expected` receives. -/
abbrev CoerceErr : Type := String × PyType × String

/-- The argument-collection loop of `Command.invoke` (`for i, given in
enumerate(params)`), with `i` the current index.  Faithful rendering of the
Python control flow:

* `if not self._parameters: break` and the `IndexError` handler taking
  `self._parameters[-1]` are merged into the `parameters.get? i` /
  `parameters.getLast?` match (`getLast? = none` exactly when the parameter
  list is empty, with the same `break` outcome);
* a `VAR_POSITIONAL` parameter appends the raw token unconverted;
* a conversion failure returns immediately with the data of the
  `_print_expected` call. -/
def processTokens (parameters : List Param) : List String → Nat → Except CoerceErr (List Value)
  | [], _ => Except.ok []
  | given :: rest, i =>
    match parameters[i]? with
    | some p =>
      if p.variadic then
        (processTokens parameters rest (i + 1)).map (fun vs => Value.str given :: vs)
      else
        match coerce p.annot.base given with
        | none => Except.error (p.name, p.annot.base, given)
        | some v => (processTokens parameters rest (i + 1)).map (fun vs => v :: vs)
    | none =>
      match parameters.getLast? with
      | none => Except.ok []
      | some p =>
        if p.variadic then
          (processTokens parameters rest (i + 1)).map (fun vs => Value.str given :: vs)
        else Except.ok []

/-- The message written by `Command._print_expected`. -/
def expected_msg (pname : String) (t : PyType) (given : String) : String :=
  "Expected \"" ++ pname ++ "\" argument to be " ++ t.type_name ++ ", got \"" ++ given ++ "\""

/-- The message written by `Command._print_usage`.  Note the Python f-string
keeps the single space between the joined names and the joined parameter list
even when the latter is empty. -/
def Command.usage_msg (c : Command) : String :=
  "Usage: " ++ String.intercalate " | " c.invokable_names ++ " " ++
    String.intercalate " " (c.parameters.map Param.format_param)

/-- An operation body (the decorated method `self.func`): from the coerced
argument list and the current bookshelf it produces the new bookshelf, the
messages it wrote, and `some e` when it raised an exception displaying as
`e` (`none` for normal return).  Arity mismatches of the underlying Python
call are part of this model (they raise `TypeError` inside `self.func(...)`,
i.e. surface as `some e`). -/
abbrev Operation : Type :=
  List Value → Bookshelf → Bookshelf × List Msg × Option String

/-- The `try: self.func(cls, *ready) except Exception as e: output.error(str(e))`
block: the operation's own messages, followed by its exception converted to
one error message when it raised. -/
def runOp (r : Bookshelf × List Msg × Option String) : Bookshelf × List Msg :=
  (r.1, r.2.1 ++ (match r.2.2 with
                  | none => []
                  | some e => [Msg.error e]))

/-- `Command.invoke`.  The result is the final bookshelf plus the messages
written to the output sink; the `Except String` layer models an exception
propagating out of `invoke` — which the code never produces, since every
coercion failure returns a printed message and the operation call is wrapped
in `try/except Exception`. -/
def Command.invoke (c : Command) (op : Operation) (shelf : Bookshelf)
    (tokens : List String) : Except String (Bookshelf × List Msg) :=
  match processTokens c.parameters tokens 0 with
  | Except.error e => Except.ok (shelf, [Msg.error (expected_msg e.1 e.2.1 e.2.2)])
  | Except.ok ready =>
    if ready.length < c.required_count then
      Except.ok (shelf, [Msg.error c.usage_msg])
    else
      Except.ok (runOp (op ready shelf))

/-! ## app.py -/

/-- The `help` command (`@command(aliases=['h'])`, no parameters past `self`). -/
def helpCmd : Command :=
  { name := "help", aliases := ["h"], parameters := [] }

/-- The `add` command (`@command(aliases=['+', 'create'])`,
`def add(self, *title: str)`): one `VAR_POSITIONAL` parameter annotated
`str`. -/
def addCmd : Command :=
  { name := "add", aliases := ["+", "create"],
    parameters := [{ name := "title", annot := Annot.prim PyType.str, variadic := true }] }

/-- The `books` command (`@command(aliases=['list', 'ls', 'all'])`). -/
def booksCmd : Command :=
  { name := "books", aliases := ["list", "ls", "all"], parameters := [] }

/-- The `status` command (`@command()`, `def status(self, book_id: str, status: str)`). -/
def statusCmd : Command :=
  { name := "status", aliases := [],
    parameters :=
      [{ name := "book_id", annot := Annot.prim PyType.str, variadic := false },
       { name := "status", annot := Annot.prim PyType.str, variadic := false }] }

/-- The `delete` command (`@command(aliases=['del', 'd'])`,
`def delete(self, book_id: str)`). -/
def deleteCmd : Command :=
  { name := "delete", aliases := ["del", "d"],
    parameters := [{ name := "book_id", annot := Annot.prim PyType.str, variadic := false }] }

/-- `App.COMMANDS`: the registry built by `SupportsCommandsType` by scanning
the class body's attributes, in declaration order (`help`, `add`, `books`,
`status`, `delete` in `app.py`). -/
def App.COMMANDS : List Command :=
  [helpCmd, addCmd, booksCmd, statusCmd, deleteCmd]

/-- The registry scan of `App.invoke_command`: the first command whose
invokable names contain `name`. -/
def findCommand (cmds : List Command) (name : String) : Option Command :=
  cmds.find? (fun c => name ∈ c.invokable_names)

/-- `App.invoke_command`, parameterized by the bound operation bodies `ops`
(one per command).  The `clear_screen()` call touches only the terminal, not
the output-sink message list or the bookshelf, and is not modelled. -/
def App.invoke_command (ops : Command → Operation) (shelf : Bookshelf)
    (name : String) (params : List String) : Except String (Bookshelf × List Msg) :=
  match findCommand App.COMMANDS name with
  | some c => c.invoke (ops c) shelf params
  | none => Except.ok (shelf, [Msg.error ("Unknown command: \"" ++ name ++ "\"")])

/-- The body of `App.status`: validate the id and the status token, then set
the book's status and re-add it (which saves).  The `none` branch of the
lookup is unreachable — it is guarded by the membership test, which is what
the Python `assert book is not None` records. -/
def App.status (shelf : Bookshelf) (book_id status : String) : Bookshelf × List Msg :=
  if dictContains shelf.books book_id = false then
    (shelf, [Msg.error ("Book with ID \"" ++ book_id ++ "\" doesn\x27t exist!")])
  else if ¬(status = "stock" ∨ status = "out") then
    (shelf, [Msg.error "Status parameter must be one of \"stock\" and \"out\"!"])
  else
    match dictLookup shelf.books book_id with
    | none => (shelf, [])
    | some book =>
      let b := { book with
                 status := if status = "stock" then BookStatus.in_stock
                           else BookStatus.handed_over }
      let shelf2 := shelf.add_book b
      (shelf2,
       [Msg.info ("Status of the book \"" ++ b.title ++ "\" (ID:" ++ book_id ++
                  ") has been set to \"" ++ b.str_status ++ "\"")])

/-! ## Auxiliary definitions for stating and witnessing the claims -/

/-- The required-argument count as the specification words it (§4.1):
"count of non-optional, non-variadic parameters".  Stated from the spec for
comparison with the code's `Command.required_count`, which does not exclude
variadic parameters. -/
def spec_required_count (c : Command) : Nat :=
  (c.parameters.filter (fun p => !p.annot.isOpt && !p.variadic)).length

/-- A command with a single required integer parameter (as the decorator
would build from `def num(self, n: int)`), used to observe integer-coercion
behaviour through `invoke`. -/
def intCmd : Command :=
  { name := "num", aliases := [],
    parameters := [{ name := "n", annot := Annot.prim PyType.int, variadic := false }] }

/-- A command with a single required boolean parameter (as the decorator
would build from `def flag(self, value: bool)`), used to observe boolean
coercion through `invoke`. -/
def boolCmd : Command :=
  { name := "flag", aliases := [],
    parameters := [{ name := "value", annot := Annot.prim PyType.bool, variadic := false }] }

/-- An operation body that leaves the bookshelf alone and writes a marker
message, so that its invocation (or non-invocation) is observable. -/
def markerOp : Operation := fun _ shelf => (shelf, [Msg.info "operation invoked"], none)

/-- An operation body that writes a message and then raises an exception
displaying as `boom`. -/
def raisingOp : Operation := fun _ shelf => (shelf, [Msg.info "starting"], some "boom")

/-- A concrete book for witnesses. -/
def book0 : Book :=
  { title := "Dune", author := "Herbert", year := 1965,
    status := BookStatus.handed_over, id := "b1" }

/-- A concrete one-book shelf for witnesses. -/
def shelf0 : Bookshelf := { books := [("b1", book0)], file := none }

/-! ## Helper lemmas about the argument-collection loop -/

/-- Past the end of the parameter list with a variadic last parameter, every
remaining token is appended raw, in order. -/
theorem processTokens_ge_var {parameters : List Param} {p : Param}
    (hl : parameters.getLast? = some p) (hv : p.variadic = true) :
    ∀ (ts : List String) (i : Nat), parameters.length ≤ i →
      processTokens parameters ts i = Except.ok (ts.map Value.str)
  | [], _, _ => rfl
  | t :: ts', i, hi => by
    have hg : parameters[i]? = none := List.getElem?_eq_none hi
    have ih := processTokens_ge_var hl hv ts' (i + 1) (Nat.le_succ_of_le hi)
    simp [processTokens, hg, hl, hv, ih, Except.map]

/-- Splitting the token list: when the loop cannot break inside the first
part — either the last parameter is variadic (so the `IndexError` handler
keeps consuming) or the first part stays within the parameter list — the
results concatenate. -/
theorem processTokens_append {parameters : List Param} :
    ∀ (xs ys : List String) (i : Nat),
      ((∃ p, parameters.getLast? = some p ∧ p.variadic = true) ∨
        i + xs.length ≤ parameters.length) →
      processTokens parameters (xs ++ ys) i =
        (processTokens parameters xs i).bind
          (fun vs => (processTokens parameters ys (i + xs.length)).map (fun ws => vs ++ ws))
  | [], ys, i, _ => by
    cases h : processTokens parameters ys i <;>
      simp [processTokens, h, Except.bind, Except.map]
  | x :: xs', ys, i, hnb => by
    have hnb' : (∃ p, parameters.getLast? = some p ∧ p.variadic = true) ∨
        i + 1 + xs'.length ≤ parameters.length := by
      cases hnb with
      | inl h => exact Or.inl h
      | inr h => right; simp [List.length_cons] at h; omega
    have ih := processTokens_append xs' ys (i + 1) hnb'
    have hidx : i + (x :: xs').length = i + 1 + xs'.length := by
      simp [List.length_cons]; omega
    rw [hidx, List.cons_append]
    cases hg : parameters[i]? with
    | some q =>
      cases hq : q.variadic with
      | true =>
        simp only [processTokens, hg, hq, if_true, ih]
        cases ha : processTokens parameters xs' (i + 1) <;>
          cases hb : processTokens parameters ys (i + 1 + xs'.length) <;>
            simp [ha, hb, Except.bind, Except.map]
      | false =>
        cases hc : coerce q.annot.base x with
        | none => simp [processTokens, hg, hq, hc, Except.bind]
        | some v =>
          simp only [processTokens, hg, hq, hc, Bool.false_eq_true, if_false, ih]
          cases ha : processTokens parameters xs' (i + 1) <;>
            cases hb : processTokens parameters ys (i + 1 + xs'.length) <;>
              simp [ha, hb, Except.bind, Except.map]
    | none =>
      obtain ⟨p, hl, hv⟩ : ∃ p, parameters.getLast? = some p ∧ p.variadic = true := by
        cases hnb with
        | inl h => exact h
        | inr h =>
          exfalso
          have := List.getElem?_eq_none_iff.1 hg
          simp [List.length_cons] at h
          omega
      simp only [processTokens, hg, hl, hv, if_true, ih]
      cases ha : processTokens parameters xs' (i + 1) <;>
        cases hb : processTokens parameters ys (i + 1 + xs'.length) <;>
          simp [ha, hb, Except.bind, Except.map]

/-- Past the end of the parameter list with a non-variadic last parameter
(or no parameters at all), the loop breaks at once: nothing further is
consumed. -/
theorem processTokens_ge_break {parameters : List Param}
    (hnv : ∀ p, parameters.getLast? = some p → p.variadic = false)
    (ts : List String) (i : Nat) (hi : parameters.length ≤ i) :
    processTokens parameters ts i = Except.ok [] := by
  cases ts with
  | nil => rfl
  | cons t ts' =>
    have hg : parameters[i]? = none := List.getElem?_eq_none hi
    cases hl : parameters.getLast? with
    | none => simp [processTokens, hg, hl]
    | some p => simp [processTokens, hg, hl, hnv p hl]

/-- With a non-variadic last parameter (or no parameters), tokens beyond the
parameter list are irrelevant: the loop behaves as if only the first
`parameters.length - i` tokens had been supplied. -/
theorem processTokens_truncate {parameters : List Param}
    (hnv : ∀ p, parameters.getLast? = some p → p.variadic = false) :
    ∀ (ts : List String) (i : Nat),
      processTokens parameters ts i =
        processTokens parameters (ts.take (parameters.length - i)) i
  | [], i => by simp
  | t :: ts', i => by
    by_cases hi : parameters.length ≤ i
    · rw [processTokens_ge_break hnv _ _ hi, Nat.sub_eq_zero_of_le hi]
      rfl
    · have hlt : i < parameters.length := Nat.lt_of_not_le hi
      have hg : parameters[i]? = some parameters[i] := List.getElem?_eq_getElem hlt
      have hsub : parameters.length - i = (parameters.length - (i + 1)) + 1 := by omega
      have ih := processTokens_truncate hnv ts' (i + 1)
      rw [hsub, List.take_succ_cons]
      simp only [processTokens, hg, ih]

/-! ## Helper lemmas about the bookshelf dictionary -/

/-- Inserting under a key makes lookup of that key return the new value. -/
theorem dictLookup_insert_self (k : String) (v : Book) :
    ∀ bs, dictLookup (dictInsert k v bs) k = some v
  | [] => by simp [dictInsert, dictLookup]
  | (k2, w) :: rest => by
    by_cases h : k2 = k
    · simp [dictInsert, h, dictLookup]
    · simp [dictInsert, h, dictLookup, dictLookup_insert_self k v rest]

/-- A successful lookup exhibits a member of the association list. -/
theorem dictLookup_mem {k : String} {v : Book} :
    ∀ {bs : List (String × Book)}, dictLookup bs k = some v → (k, v) ∈ bs
  | [], h => by simp [dictLookup] at h
  | (k2, w) :: rest, h => by
    by_cases he : k2 = k
    · subst he
      rw [dictLookup, if_pos rfl] at h
      cases h
      exact List.mem_cons_self _ _
    · rw [dictLookup, if_neg he] at h
      exact List.mem_cons_of_mem _ (dictLookup_mem h)

/-- `dictInsert b.id b` preserves the key-equals-id invariant. -/
theorem idInvariant_insert (b : Book) :
    ∀ (bs : List (String × Book)), idInvariant bs → idInvariant (dictInsert b.id b bs)
  | [], _ => by
    intro kv hkv
    simp [dictInsert] at hkv
    simp [hkv]
  | (k2, w) :: rest, h => by
    have hrest : idInvariant rest := fun kv hkv => h kv (List.mem_cons_of_mem _ hkv)
    intro kv hkv
    by_cases he : k2 = b.id
    · rw [dictInsert, if_pos he] at hkv
      cases List.mem_cons.1 hkv with
      | inl h1 => simp [h1]
      | inr h2 => exact h kv (List.mem_cons_of_mem _ h2)
    · rw [dictInsert, if_neg he] at hkv
      cases List.mem_cons.1 hkv with
      | inl h1 => exact h kv (h1 ▸ List.mem_cons_self _ _)
      | inr h2 => exact idInvariant_insert b rest hrest kv h2

/-- Every member of `dictRemove key bs` is a member of `bs`. -/
theorem mem_dictRemove {key : String} :
    ∀ {bs : List (String × Book)} {kv : String × Book},
      kv ∈ dictRemove key bs → kv ∈ bs
  | [], kv, h => by simp [dictRemove] at h
  | (k2, w) :: rest, kv, h => by
    by_cases he : k2 = key
    · rw [dictRemove, if_pos he] at h
      exact List.mem_cons_of_mem _ h
    · rw [dictRemove, if_neg he] at h
      cases List.mem_cons.1 h with
      | inl h1 => exact h1 ▸ List.mem_cons_self _ _
      | inr h2 => exact List.mem_cons_of_mem _ (mem_dictRemove h2)

/-- `dictRemove` preserves the key-equals-id invariant. -/
theorem idInvariant_remove {bs : List (String × Book)} (h : idInvariant bs) (key : String) :
    idInvariant (dictRemove key bs) :=
  fun kv hkv => h kv (mem_dictRemove hkv)

/-- The `load_books` fold preserves the key-equals-id invariant. -/
theorem idInvariant_load :
    ∀ (data : List (String × Option Book)) (bs : List (String × Book)), idInvariant bs →
      idInvariant (data.foldl (fun bs2 kv =>
        match kv.2 with
        | some book => dictInsert book.id book bs2
        | none => bs2) bs)
  | [], _, h => h
  | (k, ob) :: rest, bs, h => by
    cases ob with
    | none =>
      simp only [List.foldl]
      exact idInvariant_load rest bs h
    | some book =>
      simp only [List.foldl]
      exact idInvariant_load rest _ (idInvariant_insert book bs h)

/-- Every single bookshelf operation preserves the key-equals-id invariant. -/
theorem idInvariant_applyOp {s : Bookshelf} (h : idInvariant s.books) (o : ShelfOp) :
    idInvariant (s.applyOp o).books := by
  cases o with
  | load data => exact idInvariant_load data s.books h
  | add book => exact idInvariant_insert book s.books h
  | remove book_id =>
    simp only [Bookshelf.applyOp, Bookshelf.remove_book]
    cases hl : dictLookup s.books book_id with
    | none => exact h
    | some b => exact idInvariant_remove h book_id

/-- Sequences of bookshelf operations preserve the key-equals-id invariant. -/
theorem idInvariant_applyOps :
    ∀ (ops : List ShelfOp) (s : Bookshelf), idInvariant s.books →
      idInvariant (s.applyOps ops).books
  | [], _, h => h
  | o :: rest, s, h => by
    simp only [Bookshelf.applyOps, List.foldl]
    exact idInvariant_applyOps rest _ (idInvariant_applyOp h o)

/-- Computation of `App.status` on a present id and the `stock` token: the
book is re-stored with status `in_stock` and one success message is written. -/
theorem App.status_stock_eq {shelf : Bookshelf} {book_id : String} {book : Book}
    (hlook : dictLookup shelf.books book_id = some book) :
    App.status shelf book_id "stock" =
      (shelf.add_book { book with status := BookStatus.in_stock },
       [Msg.info ("Status of the book \"" ++ book.title ++ "\" (ID:" ++ book_id ++
                  ") has been set to \"" ++ "In stock" ++ "\"")]) := by
  simp [App.status, dictContains, hlook, Book.str_status]

/-! ## The claims -/

/-- C10: the bookshelf mapping maintains the invariant that every key equals
the `id` field of the book it maps to: starting from an empty mapping, the
invariant is preserved by every sequence of `load_books`, `add_book` and
`remove_book` operations. -/
theorem books_key_id_invariant (ops : List ShelfOp) :
    idInvariant (Bookshelf.empty.applyOps ops).books :=
  idInvariant_applyOps ops Bookshelf.empty (by intro kv hkv; simp [Bookshelf.empty] at hkv)

/-- C4: boolean coercion is the case-sensitive membership test against
`TRUE_EXPRESSIONS` = \x7b"true","yes","1","t","y"\x7d (each coercing to true) and
`FALSE_EXPRESSIONS` = \x7b"false","no","0","f","n"\x7d (each coercing to false). -/
theorem bool_literal_coercion :
    TRUE_EXPRESSIONS = ["true", "yes", "1", "t", "y"] ∧
    FALSE_EXPRESSIONS = ["false", "no", "0", "f", "n"] ∧
    coerce PyType.bool "true" = some (Value.bool true) ∧
    coerce PyType.bool "yes" = some (Value.bool true) ∧
    coerce PyType.bool "1" = some (Value.bool true) ∧
    coerce PyType.bool "t" = some (Value.bool true) ∧
    coerce PyType.bool "y" = some (Value.bool true) ∧
    coerce PyType.bool "false" = some (Value.bool false) ∧
    coerce PyType.bool "no" = some (Value.bool false) ∧
    coerce PyType.bool "0" = some (Value.bool false) ∧
    coerce PyType.bool "f" = some (Value.bool false) ∧
    coerce PyType.bool "n" = some (Value.bool false) := by decide

/-- C5: for every name that is not an invokable name of any registered
command, `invoke_command` never raises (the result is `Except.ok`), writes
exactly one `Unknown command: "<name>"` error message, invokes no command
(the result is the same for arbitrary operation bodies `ops`), and leaves
the bookshelf — including its persisted file — unchanged. -/
theorem unknown_command_reports (ops : Command → Operation) (shelf : Bookshelf)
    (name : String) (params : List String)
    (h : ∀ c ∈ App.COMMANDS, name ∉ c.invokable_names) :
    App.invoke_command ops shelf name params =
      Except.ok (shelf, [Msg.error ("Unknown command: \"" ++ name ++ "\"")]) := by
  have hnone : findCommand App.COMMANDS name = none := by
    rw [findCommand, List.find?_eq_none]
    intro c hc
    simpa using h c hc
  simp [App.invoke_command, hnone]

/-- C5 witness: dispatching the unregistered name `frobnicate` on the
one-book shelf. -/
theorem unknown_command_reports_witness :
    App.invoke_command (fun _ => markerOp) shelf0 "frobnicate" [] =
      Except.ok (shelf0, [Msg.error ("Unknown command: \"" ++ "frobnicate" ++ "\"")]) :=
  unknown_command_reports (fun _ => markerOp) shelf0 "frobnicate" [] (by decide)

/-- C6: every error raised by the operation body during `Command.invoke` is
caught at the command boundary: `invoke` always returns (`Except.ok`, first
conjunct), and when the operation runs and raises, the exception is converted
to its display message and appended to the output as one error message
(second conjunct). -/
theorem operation_error_caught (c : Command) (op : Operation) (shelf : Bookshelf)
    (tokens : List String) :
    (∃ result, c.invoke op shelf tokens = Except.ok result) ∧
    (∀ ready shelf2 msgs e,
       processTokens c.parameters tokens 0 = Except.ok ready →
       ¬ ready.length < c.required_count →
       op ready shelf = (shelf2, msgs, some e) →
       c.invoke op shelf tokens = Except.ok (shelf2, msgs ++ [Msg.error e])) := by
  constructor
  · cases h : processTokens c.parameters tokens 0 with
    | error e =>
      exact ⟨(shelf, [Msg.error (expected_msg e.1 e.2.1 e.2.2)]), by simp [Command.invoke, h]⟩
    | ok ready =>
      by_cases hr : ready.length < c.required_count
      · exact ⟨(shelf, [Msg.error c.usage_msg]), by simp [Command.invoke, h, hr]⟩
      · exact ⟨runOp (op ready shelf), by simp [Command.invoke, h, hr]⟩
  · intro ready shelf2 msgs e hok hge hop
    simp [Command.invoke, hok, hge, runOp, hop]

/-- C6 witness: the `books` command with an operation body that raises an
exception displaying as `boom` after writing one message. -/
theorem operation_error_caught_witness :
    booksCmd.invoke raisingOp Bookshelf.empty [] =
      Except.ok (Bookshelf.empty, [Msg.info "starting", Msg.error "boom"]) :=
  (operation_error_caught booksCmd raisingOp Bookshelf.empty []).2
    [] Bookshelf.empty [Msg.info "starting"] "boom" rfl (by decide) rfl

/-- C7: a command's invokable names are exactly its primary name together
with its aliases, and the dispatcher scans the registry in registration
order, selecting the first command whose invokable names contain the
dispatched name — so dispatch succeeds for every invokable name of a
registered command, and on a collision the first-registered command wins. -/
theorem dispatch_first_registered (cmds : List Command) (nm : String)
    (h : ∃ c ∈ cmds, nm ∈ c.invokable_names) :
    (∀ (c : Command) (n : String), n ∈ c.invokable_names ↔ n = c.name ∨ n ∈ c.aliases) ∧
    ∃ pre c post, cmds = pre ++ c :: post ∧
      findCommand cmds nm = some c ∧ nm ∈ c.invokable_names ∧
      ∀ c2 ∈ pre, nm ∉ c2.invokable_names := by
  refine ⟨fun c n => by simp [Command.invokable_names], ?_⟩
  induction cmds with
  | nil =>
    obtain ⟨c, hc, _⟩ := h
    exact absurd hc (List.not_mem_nil c)
  | cons c0 rest ih =>
    by_cases h0 : nm ∈ c0.invokable_names
    · exact ⟨[], c0, rest, rfl, by simp [findCommand, List.find?, h0], h0, by simp⟩
    · obtain ⟨c, hc, hn⟩ := h
      have hcrest : c ∈ rest := by
        cases List.mem_cons.1 hc with
        | inl he => exact absurd (he ▸ hn) h0
        | inr hr => exact hr
      obtain ⟨pre, c1, post, heq, hfind, hmem, hpre⟩ := ih ⟨c, hcrest, hn⟩
      refine ⟨c0 :: pre, c1, post, by rw [heq, List.cons_append], ?_, hmem, ?_⟩
      · rw [findCommand] at hfind ⊢
        simp [List.find?, h0]
        exact hfind
      · intro c2 hc2
        cases List.mem_cons.1 hc2 with
        | inl he => exact he ▸ h0
        | inr hr => exact hpre c2 hr

/-- C7 witness: dispatching the alias `d` over the registered command table
selects `deleteCmd`, the first (and only) command carrying that name, and
none of the commands registered before it carry it. -/
theorem dispatch_first_registered_witness :
    ∃ pre c post, App.COMMANDS = pre ++ c :: post ∧
      findCommand App.COMMANDS "d" = some c ∧ "d" ∈ c.invokable_names ∧
      ∀ c2 ∈ pre, "d" ∉ c2.invokable_names :=
  (dispatch_first_registered App.COMMANDS "d" ⟨deleteCmd, by decide, by decide⟩).2

/-- C1 counterexample: the registered `add` command has exactly one
parameter, the variadic `*title: str`; `_get_required_count` counts it
(its annotation `str` is not in `OPTIONALS`), so the count used to validate
completeness is 1, while the number of non-optional, non-variadic parameters
is 0. -/
theorem add_required_count_cex :
    addCmd ∈ App.COMMANDS ∧
    addCmd.required_count = 1 ∧
    spec_required_count addCmd = 0 ∧
    ¬ addCmd.required_count = spec_required_count addCmd := by decide

/-- C1 (amended): the required-argument count equals the number of
parameters whose annotation is not Optional-wrapped — a variadic parameter
with a non-Optional annotation is included — and every invocation whose
count of collected arguments (coerced values plus variadic tokens) is below
that count aborts without calling the bound operation and prints exactly one
usage line. -/
theorem required_count_and_usage (c : Command) (op : Operation) (shelf : Bookshelf)
    (tokens : List String) (ready : List Value)
    (hok : processTokens c.parameters tokens 0 = Except.ok ready)
    (hlt : ready.length < c.required_count) :
    c.required_count = (c.parameters.filter (fun p => !p.annot.isOpt)).length ∧
    c.invoke op shelf tokens = Except.ok (shelf, [Msg.error c.usage_msg]) :=
  ⟨rfl, by simp [Command.invoke, hok, hlt]⟩

/-- C1 witness: the `status` command invoked with one token prints only its
usage line. -/
theorem required_count_and_usage_witness :
    statusCmd.required_count = (statusCmd.parameters.filter (fun p => !p.annot.isOpt)).length ∧
    statusCmd.invoke markerOp Bookshelf.empty ["x"] =
      Except.ok (Bookshelf.empty, [Msg.error statusCmd.usage_msg]) :=
  required_count_and_usage statusCmd markerOp Bookshelf.empty ["x"] [Value.str "x"]
    (by decide) (by decide)

/-- C2 counterexample: `intCmd` invoked with more tokens than parameters and
a non-variadic last parameter — the excess token `extra` is indeed dropped,
but an error about the matched token `abc` IS reported and the operation is
NOT invoked (the marker message is absent), contradicting the claim's
"no error is reported, and the operation is still invoked". -/
theorem excess_tokens_cex :
    intCmd.parameters.length < (["abc", "extra"] : List String).length ∧
    intCmd.parameters.getLast?.map Param.variadic = some false ∧
    intCmd.invoke markerOp Bookshelf.empty ["abc", "extra"] =
      Except.ok (Bookshelf.empty, [Msg.error (expected_msg "n" PyType.int "abc")]) := by
  decide

/-- C2 (amended): for every invocation with more raw tokens than declared
parameters — if the last declared parameter is variadic, every excess token
is appended to the argument list in its original order, unconverted; otherwise
every excess token is silently dropped, the invocation behaving exactly as if
only the first `parameters.length` tokens had been supplied, and in
particular, when the matched tokens coerce successfully and satisfy the
required count, no error is reported and the operation is invoked with the
matched arguments. -/
theorem invoke_excess_tokens (c : Command) (op : Operation) (shelf : Bookshelf)
    (tokens : List String) (hexcess : c.parameters.length < tokens.length) :
    (c.parameters.getLast?.map Param.variadic = some true →
       processTokens c.parameters tokens 0 =
         (processTokens c.parameters (tokens.take c.parameters.length) 0).map
           (fun vs => vs ++ (tokens.drop c.parameters.length).map Value.str)) ∧
    (¬ c.parameters.getLast?.map Param.variadic = some true →
       c.invoke op shelf tokens = c.invoke op shelf (tokens.take c.parameters.length) ∧
       ∀ ready,
         processTokens c.parameters (tokens.take c.parameters.length) 0 = Except.ok ready →
         ¬ ready.length < c.required_count →
         c.invoke op shelf tokens = Except.ok (runOp (op ready shelf))) := by
  constructor
  · intro hvar
    obtain ⟨p, hl, hv⟩ : ∃ p, c.parameters.getLast? = some p ∧ p.variadic = true := by
      cases hl : c.parameters.getLast? with
      | none => rw [hl] at hvar; cases hvar
      | some p =>
        rw [hl] at hvar
        simp at hvar
        exact ⟨p, rfl, hvar⟩
    have happ := @processTokens_append c.parameters
      (tokens.take c.parameters.length) (tokens.drop c.parameters.length) 0
      (Or.inl ⟨p, hl, hv⟩)
    rw [List.take_append_drop] at happ
    have hlen : (tokens.take c.parameters.length).length = c.parameters.length := by
      rw [List.length_take]
      exact min_eq_left (Nat.le_of_lt hexcess)
    rw [happ, hlen]
    have hgev := processTokens_ge_var hl hv (tokens.drop c.parameters.length)
      (0 + c.parameters.length) (by omega)
    rw [hgev]
    cases hfr : processTokens c.parameters (tokens.take c.parameters.length) 0 <;>
      simp [Except.bind, Except.map]
  · intro hvar
    have hnv : ∀ p, c.parameters.getLast? = some p → p.variadic = false := by
      intro p hp
      rw [hp] at hvar
      simp at hvar
      exact hvar
    have ht := processTokens_truncate hnv tokens 0
    rw [Nat.sub_zero] at ht
    refine ⟨by simp only [Command.invoke, ht], ?_⟩
    intro ready hok hge
    rw [← ht] at hok
    simp [Command.invoke, hok, hge]

/-- C2 witness: for the variadic `add` command all tokens beyond the
parameter list are appended raw; for the non-variadic `status` command,
invoking with three tokens is the same as invoking with the first two. -/
theorem invoke_excess_tokens_witness :
    (processTokens addCmd.parameters ["a", "b"] 0 =
      (processTokens addCmd.parameters ((["a", "b"] : List String).take addCmd.parameters.length) 0).map
        (fun vs => vs ++ ((["a", "b"] : List String).drop addCmd.parameters.length).map Value.str)) ∧
    statusCmd.invoke markerOp shelf0 ["x", "y", "z"] =
      statusCmd.invoke markerOp shelf0 ((["x", "y", "z"] : List String).take statusCmd.parameters.length) :=
  ⟨(invoke_excess_tokens addCmd markerOp shelf0 ["a", "b"] (by decide)).1 (by decide),
   ((invoke_excess_tokens statusCmd markerOp shelf0 ["x", "y", "z"] (by decide)).2
      (by decide)).1⟩

/-- C3: for a parameter declared with integer or float type and a raw token
whose numeric parse fails, `Command.invoke` aborts without calling the bound
operation (the result is independent of `op`) and writes exactly one
`Expected "<param>" argument to be <Type>, got "<raw>"` error message. -/
theorem numeric_coercion_error (c : Command) (op : Operation) (shelf : Bookshelf)
    (tokens : List String) (i : Nat) (p : Param) (given : String) (ready : List Value)
    (hp : c.parameters[i]? = some p)
    (hvar : p.variadic = false)
    (hnum : p.annot.base = PyType.int ∧ pyParseInt given = none ∨
            p.annot.base = PyType.float ∧ pyParseFloat given = none)
    (htok : tokens[i]? = some given)
    (hfront : processTokens c.parameters (tokens.take i) 0 = Except.ok ready) :
    c.invoke op shelf tokens =
      Except.ok (shelf, [Msg.error (expected_msg p.name p.annot.base given)]) := by
  have hfail : coerce p.annot.base given = none := by
    rcases hnum with ⟨h1, h2⟩ | ⟨h1, h2⟩ <;> simp [coerce, h1, h2]
  have hip : i < c.parameters.length := by
    by_contra hge
    rw [List.getElem?_eq_none (Nat.le_of_not_lt hge)] at hp
    cases hp
  have hit : i < tokens.length := by
    by_contra hge
    rw [List.getElem?_eq_none (Nat.le_of_not_lt hge)] at htok
    cases htok
  have htake : (tokens.take i).length = i := by
    rw [List.length_take]
    exact min_eq_left (Nat.le_of_lt hit)
  have happ := @processTokens_append c.parameters
    (tokens.take i) (tokens.drop i) 0 (Or.inr (by rw [htake]; omega))
  rw [List.take_append_drop] at happ
  have hdrop : tokens.drop i = given :: tokens.drop (i + 1) := by
    rw [List.drop_eq_getElem_cons hit]
    congr 1
    have hgi := List.getElem?_eq_getElem hit
    rw [htok] at hgi
    exact (Option.some.inj hgi).symm
  have hstep : processTokens c.parameters (tokens.drop i) (0 + (tokens.take i).length) =
      Except.error (p.name, p.annot.base, given) := by
    rw [htake, Nat.zero_add, hdrop]
    simp [processTokens, hp, hvar, hfail]
  have hproc : processTokens c.parameters tokens 0 =
      Except.error (p.name, p.annot.base, given) := by
    rw [happ, hfront, hstep]
    rfl
  simp [Command.invoke, hproc]

/-- C3 witness: `intCmd` invoked with the unparsable token `abc`. -/
theorem numeric_coercion_error_witness :
    intCmd.invoke markerOp Bookshelf.empty ["abc"] =
      Except.ok (Bookshelf.empty,
        [Msg.error (expected_msg ({ name := "n", annot := Annot.prim PyType.int,
                                    variadic := false } : Param).name
          ({ name := "n", annot := Annot.prim PyType.int, variadic := false } : Param).annot.base
          "abc")]) :=
  numeric_coercion_error intCmd markerOp Bookshelf.empty ["abc"] 0
    { name := "n", annot := Annot.prim PyType.int, variadic := false } "abc" []
    (by decide) (by decide) (Or.inl ⟨by decide, by decide⟩) (by decide) (by decide)

/-- C8: for a book id present in a well-formed bookshelf, running the
`status <id> stock` operation twice in a row is idempotent: after each call
the book's status is `in_stock`, and the second call (like the first)
reports one success message through the info channel, not an error. -/
theorem status_stock_idempotent (shelf : Bookshelf) (book_id : String)
    (hmem : dictContains shelf.books book_id = true)
    (hwf : idInvariant shelf.books) :
    ∃ b1 b2 t1 t2,
      (App.status shelf book_id "stock").2 = [Msg.info t1] ∧
      dictLookup (App.status shelf book_id "stock").1.books book_id = some b1 ∧
      b1.status = BookStatus.in_stock ∧
      (App.status (App.status shelf book_id "stock").1 book_id "stock").2 = [Msg.info t2] ∧
      dictLookup (App.status (App.status shelf book_id "stock").1 book_id "stock").1.books
        book_id = some b2 ∧
      b2.status = BookStatus.in_stock := by
  obtain ⟨book, hlook⟩ : ∃ b, dictLookup shelf.books book_id = some b := by
    unfold dictContains at hmem
    cases h : dictLookup shelf.books book_id with
    | none => rw [h] at hmem; cases hmem
    | some b => exact ⟨b, rfl⟩
  have hid : book_id = book.id := hwf (book_id, book) (dictLookup_mem hlook)
  have hbid : ({ book with status := BookStatus.in_stock } : Book).id = book_id := hid.symm
  have h1 := App.status_stock_eq hlook
  have hlook1 : dictLookup (shelf.add_book { book with status := BookStatus.in_stock }).books
      book_id = some { book with status := BookStatus.in_stock } := by
    show dictLookup (dictInsert ({ book with status := BookStatus.in_stock } : Book).id
      { book with status := BookStatus.in_stock } shelf.books) book_id = _
    rw [hbid]
    exact dictLookup_insert_self book_id _ shelf.books
  have h2 := App.status_stock_eq hlook1
  have hlook2 : dictLookup ((shelf.add_book { book with status := BookStatus.in_stock }).add_book
      { book with status := BookStatus.in_stock }).books book_id =
      some { book with status := BookStatus.in_stock } := by
    show dictLookup (dictInsert ({ book with status := BookStatus.in_stock } : Book).id
      { book with status := BookStatus.in_stock }
      (shelf.add_book { book with status := BookStatus.in_stock }).books) book_id = _
    rw [hbid]
    exact dictLookup_insert_self book_id _ _
  refine ⟨{ book with status := BookStatus.in_stock },
          { book with status := BookStatus.in_stock },
          "Status of the book \"" ++ book.title ++ "\" (ID:" ++ book_id ++
            ") has been set to \"" ++ "In stock" ++ "\"",
          "Status of the book \"" ++ book.title ++ "\" (ID:" ++ book_id ++
            ") has been set to \"" ++ "In stock" ++ "\"",
          ?_, ?_, rfl, ?_, ?_, rfl⟩
  · rw [h1]
  · rw [h1]; exact hlook1
  · rw [h1, h2]
  · rw [h1, h2]; exact hlook2

/-- C8 witness: the one-book shelf with the handed-over book `b1`. -/
theorem status_stock_idempotent_witness :
    ∃ b1 b2 t1 t2,
      (App.status shelf0 "b1" "stock").2 = [Msg.info t1] ∧
      dictLookup (App.status shelf0 "b1" "stock").1.books "b1" = some b1 ∧
      b1.status = BookStatus.in_stock ∧
      (App.status (App.status shelf0 "b1" "stock").1 "b1" "stock").2 = [Msg.info t2] ∧
      dictLookup (App.status (App.status shelf0 "b1" "stock").1 "b1" "stock").1.books
        "b1" = some b2 ∧
      b2.status = BookStatus.in_stock :=
  status_stock_idempotent shelf0 "b1" (by decide) (by decide)

/-- C9: boolean coercion never fails, so the typed-error branch is
unreachable for boolean parameters: every token coerces (first conjunct), a
token outside both literal sets coerces by string truthiness — non-empty to
true, the empty string to false — (second conjunct), and the bound operation
is still invoked with that value (third conjunct). -/
theorem bool_coercion_never_fails (tok : String) (op : Operation) (shelf : Bookshelf)
    (hT : tok ∉ TRUE_EXPRESSIONS) (hF : tok ∉ FALSE_EXPRESSIONS) :
    (∀ t : String, (coerce PyType.bool t).isSome = true) ∧
    coerce PyType.bool tok = some (Value.bool (!tok.isEmpty)) ∧
    boolCmd.invoke op shelf [tok] = Except.ok (runOp (op [Value.bool (!tok.isEmpty)] shelf)) := by
  have hc : coerce PyType.bool tok = some (Value.bool (!tok.isEmpty)) := by
    simp [coerce, hT, hF]
  refine ⟨?_, hc, ?_⟩
  · intro t
    by_cases h1 : t ∈ TRUE_EXPRESSIONS
    · simp [coerce, h1]
    · by_cases h2 : t ∈ FALSE_EXPRESSIONS <;> simp [coerce, h1, h2]
  · simp [Command.invoke, processTokens, boolCmd, hc, Command.required_count,
      Annot.base, Annot.isOpt, Except.map]

/-- C9 witness: the unrecognized tokens `maybe` and `True` coerce to true
and the operation is invoked. -/
theorem bool_coercion_never_fails_witness :
    coerce PyType.bool "maybe" = some (Value.bool true) ∧
    coerce PyType.bool "True" = some (Value.bool true) ∧
    boolCmd.invoke markerOp Bookshelf.empty ["maybe"] =
      Except.ok (Bookshelf.empty, [Msg.info "operation invoked"]) := by
  have h1 := bool_coercion_never_fails "maybe" markerOp Bookshelf.empty (by decide) (by decide)
  have h2 := bool_coercion_never_fails "True" markerOp Bookshelf.empty (by decide) (by decide)
  refine ⟨by simpa using h1.2.1, by simpa using h2.2.1, ?_⟩
  rw [h1.2.2]
  rfl

end LibraryApp
